import Mathlib

/-!
Verification of the quickget config-generation core: the HTTP access layer
(`capture_page`), the link-liveness validator (`all_valid`), the
fan-out/flatten combinator (`join_futures`), and the catalog assembly
(`to_os`).  The Rust source is shallowly embedded: network I/O becomes an
explicit transport oracle, the tokio semaphores become explicit open/closed
flags plus an event trace (for the permit-discipline claims) and a counting
transition system (for the concurrency-bound claim).
-/

namespace Quickget

/-- Result of one HTTP request on the wire: a transport/connection error, or
a response with a numeric status code and a body. -/
inductive TResult where
  | err : TResult
  | ok (status : Nat) (body : String) : TResult
deriving DecidableEq, Repr

/-- `StatusCode::is_success()` of the http crate: 2xx. -/
def isSuccess (s : Nat) : Bool := 200 ≤ s && s < 300

/-- `StatusCode::TOO_MANY_REQUESTS`. -/
def tooManyRequests : Nat := 429

/-- Model of `reqwest::Url` as used by the program: scheme, optional host
(`Url::host_str` returns `None` for cannot-be-a-base URLs such as
`mailto:`), and the remainder of the URL. -/
structure UrlT where
  scheme : String
  host : Option String
  rest : String
deriving DecidableEq, Repr

/-- Split a character list at the first occurrence of `c`; `none` when `c`
does not occur. -/
def splitFirst (c : Char) : List Char → Option (List Char × List Char)
  | [] => none
  | x :: xs =>
      if x = c then some ([], xs)
      else (splitFirst c xs).map (fun p => (x :: p.1, p.2))

/-- Characters allowed in a URL scheme after the leading letter. -/
def isSchemeChar (c : Char) : Bool :=
  c.isAlphanum || c = '+' || c = '-' || c = '.'

/-- Model of URL parsing (`input.parse::<Url>()`): a non-empty alphabetic-led
scheme before the first `:`; a `//` introduces an authority whose non-empty
host runs to the next `/` or `:`; without `//` the URL has no host
(`mailto:`-style). Anything else fails to parse. -/
def parseUrlChars (cs : List Char) : Option UrlT :=
  match splitFirst ':' cs with
  | none => none
  | some (scheme, rest) =>
      if scheme.isEmpty then none
      else if !(scheme.all isSchemeChar) then none
      else if !((scheme.headD 'a').isAlpha) then none
      else
        match rest with
        | '/' :: '/' :: tail =>
            let host := tail.takeWhile (fun c => c ≠ '/' && c ≠ ':')
            if host.isEmpty then none
            else some ⟨⟨scheme⟩, some ⟨host⟩, ⟨tail.drop host.length⟩⟩
        | _ => some ⟨⟨scheme⟩, none, ⟨rest⟩⟩

/-- `input.parse::<Url>()` on a string. -/
def parseUrl (s : String) : Option UrlT := parseUrlChars s.data

/-- The static per-host override pools: `CLIENT.url_permits` is
`HashMap::from([("sourceforge.net", Semaphore::new(5))])`, so exactly the
host `sourceforge.net` is registered. -/
def registered (h : String) : Bool := h = "sourceforge.net"

/-- Environment a fetch runs against: the transport (what one GET of each
URL returns) and the open/closed state of the global and per-host
semaphores (`Semaphore::acquire` errors only when the semaphore has been
closed). -/
structure Env where
  transport : UrlT → TResult
  globalOpen : Bool
  hostOpen : String → Bool

/-- Permit and network events emitted by a fetch, in order. -/
inductive Event where
  | acqHost (h : String) : Event
  | relHost (h : String) : Event
  | acqGlobal : Event
  | relGlobal : Event
  | send (u : UrlT) : Event
deriving DecidableEq, Repr

/-- Shallow embedding of `capture_page` (src/utils.rs:13-36), returning the
result together with the trace of permit/network events.  Early `?` returns
release held permits by RAII in reverse declaration order (global permit
first, then the per-host permit), matching the explicit `drop`s on the
normal path. -/
def capturePage (env : Env) (input : String) : Option String × List Event :=
  match parseUrl input with
  | none => (none, [])
  | some url =>
    match url.host with
    | none => (none, [])
    | some h =>
      if registered h then
        if env.hostOpen h then
          if env.globalOpen then
            match env.transport url with
            | .err => (none, [.acqHost h, .acqGlobal, .send url, .relGlobal, .relHost h])
            | .ok s b =>
                (if isSuccess s then (if b.isEmpty then none else some b) else none,
                 [.acqHost h, .acqGlobal, .send url, .relGlobal, .relHost h])
          else (none, [.acqHost h, .relHost h])
        else (none, [])
      else
        if env.globalOpen then
          match env.transport url with
          | .err => (none, [.acqGlobal, .send url, .relGlobal])
          | .ok s b =>
              (if isSuccess s then (if b.isEmpty then none else some b) else none,
               [.acqGlobal, .send url, .relGlobal])
        else (none, [])

/-- Shallow embedding of the per-URL probe inside `all_valid`
(src/utils.rs:39-67): same permit discipline as `capture_page`, but the
outcome is `some (is_success || status == 429)` when a status was obtained
and `none` when no status could be determined (parse failure, missing host,
closed pool, transport error). -/
def validateUrl (env : Env) (input : String) : Option Bool × List Event :=
  match parseUrl input with
  | none => (none, [])
  | some url =>
    match url.host with
    | none => (none, [])
    | some h =>
      if registered h then
        if env.hostOpen h then
          if env.globalOpen then
            match env.transport url with
            | .err => (none, [.acqHost h, .acqGlobal, .send url, .relGlobal, .relHost h])
            | .ok s _ =>
                (some (isSuccess s || s = tooManyRequests),
                 [.acqHost h, .acqGlobal, .send url, .relGlobal, .relHost h])
          else (none, [.acqHost h, .relHost h])
        else (none, [])
      else
        if env.globalOpen then
          match env.transport url with
          | .err => (none, [.acqGlobal, .send url, .relGlobal])
          | .ok s _ =>
              (some (isSuccess s || s = tooManyRequests),
               [.acqGlobal, .send url, .relGlobal])
        else (none, [])

/-- `futures::future::join_all` on already-evaluated units: every unit's
result appears, in input order, regardless of individual failure. -/
def joinAll {α : Type} (xs : List α) : List α := xs

/-- Shallow embedding of `all_valid` (src/utils.rs:38-69):
`join_futures!(futures).into_iter().all(|r| r.unwrap_or(true))`. -/
def allValid (env : Env) (urls : List String) : Bool :=
  (joinAll (urls.map (fun u => (validateUrl env u).1))).all (fun r => r.getD true)

/-! ## Catalog data model (quickget_core data structures as used here) -/

/-- A network source: `WebSource { url, checksum, archive_format, file_name }`. -/
structure WebSource where
  url : String
  checksum : Option String
  archiveFormat : Option String
  fileName : Option String
deriving DecidableEq, Repr

/-- A non-network container-registry source. -/
structure DockerSource where
  image : String
deriving DecidableEq, Repr

/-- `Source`: `Web` entries are network resources to be liveness-checked,
`Docker` entries are non-network. -/
inductive Source where
  | web (w : WebSource) : Source
  | docker (d : DockerSource) : Source
deriving DecidableEq, Repr

/-- A disk image resource: `Disk { source }`. -/
structure Disk where
  source : Source
deriving DecidableEq, Repr

/-- CPU architecture as in `quickemu::config::Arch`. -/
inductive Arch where
  | x86_64 | aarch64 | riscv64
deriving DecidableEq, Repr

/-- `Config`: one candidate record, with the fields `to_os` reads. -/
structure Config where
  release : String
  edition : Option String
  arch : Arch
  iso : Option (List Source)
  img : Option (List Source)
  fixed_iso : Option (List Source)
  floppy : Option (List Source)
  disk_images : Option (List Disk)
deriving DecidableEq, Repr

/-- One catalog entry (`OS`). -/
structure OS where
  name : String
  pretty_name : String
  homepage : Option String
  description : Option String
  releases : List Config
deriving DecidableEq, Repr

/-- `filter_web_sources` (src/store_data.rs:71-79): keep the URLs of the
`Web` sources, dropping every other kind. -/
def filter_web_sources (sources : List Source) : List String :=
  sources.filterMap (fun s =>
    match s with
    | .web w => some w.url
    | _ => none)

/-- `extract_disk_urls` (src/store_data.rs:81-86): the web URLs of the
nested disk-image sources. -/
def extract_disk_urls (disks : Option (List Disk)) : List String :=
  match disks with
  | none => []
  | some ds => filter_web_sources (ds.map (fun d => d.source))

/-- The URL collection `to_os` builds for one record
(src/store_data.rs:34-38): the four optional media source lists flattened,
restricted to web sources, chained with the nested disk-image web URLs. -/
def recordUrls (r : Config) : List String :=
  (([r.iso, r.img, r.fixed_iso, r.floppy].filterMap id).map filter_web_sources).flatten
    ++ extract_disk_urls r.disk_images

/-- The static data of one `Distro` implementation, with the outcome of its
(external, out-of-scope) `generate_configs` capability given as data. -/
structure DistroData where
  name : String
  pretty_name : String
  homepage : Option String
  description : Option String
  generate : Option (List Config)

/-- Shallow embedding of `to_os` (src/store_data.rs:23-68): bail out when
generation yields none or an empty list; otherwise validate every record
via `all_valid`, keep exactly the records whose validation returned true,
and emit the catalog entry. -/
def to_os (env : Env) (d : DistroData) : Option OS :=
  match d.generate with
  | none => none
  | some releases =>
    if releases.isEmpty then none
    else
      let results := joinAll (releases.map (fun r => allValid env (recordUrls r)))
      let kept := (releases.zip results).filterMap
        (fun p => if p.2 then some p.1 else none)
      some ⟨d.name, d.pretty_name, d.homepage, d.description, kept⟩

/-! ## The `join_futures!` flatten model (src/join_futures/src/lib.rs)

The macro expands `join_futures!(v, n)` to
`futures::future::join_all(v).await.into_iter().flatten()...flatten().collect()`
with exactly `n` textual `.flatten()` calls.  Rust's `Iterator::flatten`
turns each item into the sequence its `IntoIterator` yields: an `Option`
contributes its content (or nothing), a `Vec` contributes its elements. -/

/-- Rust `IntoIterator` for the wrapper types the macro flattens. -/
class IntoIter (σ : Type) (α : outParam Type) where
  intoIter : σ → List α

instance {α : Type} : IntoIter (Option α) α :=
  ⟨fun o => match o with | none => [] | some a => [a]⟩

instance {α : Type} : IntoIter (List α) α := ⟨fun l => l⟩

/-- One `.flatten()` call on an iterator: each item replaced by the
sequence its `IntoIterator` yields, order preserved. -/
def flattenStep {σ α : Type} [IntoIter σ α] (xs : List σ) : List α :=
  (xs.map IntoIter.intoIter).flatten

/-- `join_futures!(v)` — depth 0: just `join_all`. -/
def joinFutures0 {α : Type} (xs : List α) : List α := joinAll xs

/-- `join_futures!(v, 1)` — depth 1: one `.flatten()` after `join_all`. -/
def joinFutures1 {σ α : Type} [IntoIter σ α] (xs : List σ) : List α :=
  flattenStep (joinAll xs)

/-- `join_futures!(v, 2)` — depth 2: two `.flatten()` calls after
`join_all`. -/
def joinFutures2 {τ σ α : Type} [IntoIter τ σ] [IntoIter σ α]
    (xs : List τ) : List α :=
  flattenStep (flattenStep (joinAll xs))

/-! ## Retry policy

The retry behaviour lives in the external `reqwest_retry` middleware; the
repository only configures it
(`ExponentialBackoff::builder().build_with_max_retries(3)`,
src/utils.rs:86-91). -/

/-- Modelled from the spec: a response is retried exactly on transport
errors and server (5xx) failures; every other status is final. -/
def retryable : TResult → Bool
  | .err => true
  | .ok s _ => 500 ≤ s && s < 600

/-- Modelled from the spec: bounded retry. `oracle k` is what the wire
returns for attempt `k`; `budget` is the number of retries still allowed.
Returns the final result and the total number of attempts issued. -/
def retrySend (oracle : Nat → TResult) : Nat → Nat → TResult × Nat
  | 0, k => (oracle k, k + 1)
  | budget + 1, k =>
      let r := oracle k
      if retryable r then retrySend oracle budget (k + 1) else (r, k + 1)

/-- The configured policy: at most 3 retries
(`build_with_max_retries(3)`). -/
def maxRetries : Nat := 3

/-- One governed GET with the configured retry budget. -/
def retryFetch (oracle : Nat → TResult) : TResult × Nat :=
  retrySend oracle maxRetries 0

/-- Modelled from the spec: exponential backoff — the delay before retry
`k+1` doubles the delay before retry `k`. -/
def backoffDelay (base k : Nat) : Nat := base * 2 ^ k

/-! ## Concurrency transition system

The counting semantics of the two semaphores
(`Semaphore::new(150)` global, `Semaphore::new(5)` for `sourceforge.net`,
src/utils.rs:86-95) together with the acquire/send/release protocol of
`capture_page` and the `all_valid` probes.  Tasks targeting the one
registered host acquire its permit, then the global permit, hold both
while their request is in flight, and release in reverse order; tasks for
any other host use only the global permit. -/

/-- Permit-accounting state: free units of each semaphore, and how many
tasks sit in each holding phase. `sfHeld` counts tasks holding the
sourceforge permit but not the global one (before acquiring it or after
releasing it); `sfInFlight` and `otherInFlight` count tasks whose request
is on the wire (global permit held). -/
structure CState where
  globalAvail : Nat
  sfAvail : Nat
  sfHeld : Nat
  sfInFlight : Nat
  otherInFlight : Nat
deriving DecidableEq, Repr

/-- `Semaphore::new(150)`. -/
def globalCapacity : Nat := 150

/-- `Semaphore::new(5)` for `sourceforge.net`. -/
def sourceforgeCapacity : Nat := 5

/-- Start state: all permits free, no task holding anything. -/
def initState : CState := ⟨globalCapacity, sourceforgeCapacity, 0, 0, 0⟩

/-- One scheduler step: a task acquires an available permit (in the order
the code imposes: host permit first, global second), or releases one (in
reverse order). Acquisition requires a free unit — a task whose semaphore
is exhausted stays suspended. -/
inductive Step : CState → CState → Prop where
  | sfAcqHost (g sa sh si oi : Nat) :
      Step ⟨g, sa + 1, sh, si, oi⟩ ⟨g, sa, sh + 1, si, oi⟩
  | sfAcqGlobal (g sa sh si oi : Nat) :
      Step ⟨g + 1, sa, sh + 1, si, oi⟩ ⟨g, sa, sh, si + 1, oi⟩
  | sfRelGlobal (g sa sh si oi : Nat) :
      Step ⟨g, sa, sh, si + 1, oi⟩ ⟨g + 1, sa, sh + 1, si, oi⟩
  | sfRelHost (g sa sh si oi : Nat) :
      Step ⟨g, sa, sh + 1, si, oi⟩ ⟨g, sa + 1, sh, si, oi⟩
  | otherAcqGlobal (g sa sh si oi : Nat) :
      Step ⟨g + 1, sa, sh, si, oi⟩ ⟨g, sa, sh, si, oi + 1⟩
  | otherRelGlobal (g sa sh si oi : Nat) :
      Step ⟨g, sa, sh, si, oi + 1⟩ ⟨g + 1, sa, sh, si, oi⟩

/-- States reachable from the start state. -/
inductive Reachable : CState → Prop where
  | init : Reachable initState
  | step {s t : CState} : Reachable s → Step s t → Reachable t

/-! ## Counter-threaded pipeline (for the determinism claim)

The same probe/validate/assemble chain, but against a transport that may
answer each request differently: `transport u k` is the answer to the
`k`-th request overall, so the outcome could in principle depend on how
the scheduler interleaves requests. -/

/-- Environment with a request-indexed transport. -/
structure EnvS where
  transport : UrlT → Nat → TResult
  globalOpen : Bool
  hostOpen : String → Bool

/-- A transport is deterministic when each URL gets the same answer on
every request. -/
def Deterministic (T : UrlT → Nat → TResult) : Prop :=
  ∀ u n m, T u n = T u m

/-- The `all_valid` probe against the request-indexed transport, threading
the request counter. -/
def validateUrlAt (env : EnvS) (input : String) (ctr : Nat) :
    Option Bool × Nat :=
  match parseUrl input with
  | none => (none, ctr)
  | some url =>
    match url.host with
    | none => (none, ctr)
    | some h =>
      if registered h then
        if env.hostOpen h then
          if env.globalOpen then
            match env.transport url ctr with
            | .err => (none, ctr + 1)
            | .ok s _ => (some (isSuccess s || s = tooManyRequests), ctr + 1)
          else (none, ctr)
        else (none, ctr)
      else
        if env.globalOpen then
          match env.transport url ctr with
          | .err => (none, ctr + 1)
          | .ok s _ => (some (isSuccess s || s = tooManyRequests), ctr + 1)
        else (none, ctr)

/-- Probe a record's URLs in sequence, threading the request counter. -/
def probeAll (env : EnvS) : List String → Nat → List (Option Bool) × Nat
  | [], ctr => ([], ctr)
  | u :: us, ctr =>
      let p := validateUrlAt env u ctr
      let q := probeAll env us p.2
      (p.1 :: q.1, q.2)

/-- `all_valid` against the request-indexed transport. -/
def allValidAt (env : EnvS) (urls : List String) (ctr : Nat) : Bool × Nat :=
  let p := probeAll env urls ctr
  ((joinAll p.1).all (fun r => r.getD true), p.2)

/-- Validate every record of a release list, threading the counter. -/
def validateAll (env : EnvS) : List Config → Nat → List Bool × Nat
  | [], ctr => ([], ctr)
  | r :: rs, ctr =>
      let p := allValidAt env (recordUrls r) ctr
      let q := validateAll env rs p.2
      (p.1 :: q.1, q.2)

/-- `to_os` against the request-indexed transport. -/
def to_osAt (env : EnvS) (d : DistroData) (ctr : Nat) : Option OS × Nat :=
  match d.generate with
  | none => (none, ctr)
  | some releases =>
    if releases.isEmpty then (none, ctr)
    else
      let p := validateAll env releases ctr
      let kept := (releases.zip p.1).filterMap
        (fun q => if q.2 then some q.1 else none)
      (some ⟨d.name, d.pretty_name, d.homepage, d.description, kept⟩, p.2)

/-! ## Spec-side classifiers and trace predicates -/

/-- The spec's per-URL liveness classification, stated from the spec's
words for comparison with the implementation: a URL is valid exactly when
its probe returns a success or too-many-requests status, and invalid on
any other status or on a transport error. -/
def specUrlValid (env : Env) (input : String) : Bool :=
  match parseUrl input with
  | none => false
  | some url =>
      match env.transport url with
      | .err => false
      | .ok s _ => isSuccess s || s = tooManyRequests

/-- A probe of `u` definitely fails: the URL parses, has a host, both
permits are obtainable, and the wire returns a status that is neither a
success nor 429.  (Every other outcome leaves the probe without a status.) -/
def definiteFailure (env : Env) (u : String) : Bool :=
  match parseUrl u with
  | none => false
  | some url =>
    match url.host with
    | none => false
    | some h =>
      if registered h && !(env.hostOpen h) then false
      else if !env.globalOpen then false
      else
        match env.transport url with
        | .err => false
        | .ok s _ => !(isSuccess s || s = tooManyRequests)

/-- Is this event a per-host permit acquisition? -/
def isAcqHost : Event → Bool
  | .acqHost _ => true
  | _ => false

/-- No per-host permit is acquired at or after the global acquisition:
the per-host ticket, when taken at all, is taken first. -/
def hostAcqBeforeGlobal (tr : List Event) : Bool :=
  ((tr.dropWhile (fun e => !(e == Event.acqGlobal))).filter isAcqHost).isEmpty

/-- The permit discipline of one fetch/probe trace: the global ticket and
every per-host ticket are acquired at most once and released exactly as
often as acquired, and no per-host ticket is acquired after the global
one. -/
def permitDiscipline (tr : List Event) : Prop :=
  tr.count .acqGlobal = tr.count .relGlobal ∧
  tr.count .acqGlobal ≤ 1 ∧
  (∀ h, tr.count (.acqHost h) = tr.count (.relHost h) ∧ tr.count (.acqHost h) ≤ 1) ∧
  hostAcqBeforeGlobal tr = true

/-- All sources of a record, media fields in field order followed by the
nested disk-image sources. -/
def configSources (r : Config) : List Source :=
  ([r.iso, r.img, r.fixed_iso, r.floppy].filterMap id).flatten
    ++ (r.disk_images.getD []).map (fun d => d.source)

/-- Is this source a network (web) source? -/
def isWeb : Source → Bool
  | .web _ => true
  | _ => false

/-! ## Concrete inputs used by counterexamples and witnesses -/

/-- Every request dies with a transport error; all pools open. -/
def envErr : Env := ⟨fun _ => .err, true, fun _ => true⟩

/-- Every request returns 404 with an empty body; all pools open. -/
def env404 : Env := ⟨fun _ => .ok 404 "", true, fun _ => true⟩

/-- Every request returns 200 `hello`; all pools open. -/
def envOk : Env := ⟨fun _ => .ok 200 "hello", true, fun _ => true⟩

/-- A candidate record with a single web ISO source. -/
def cfgWeb : Config :=
  ⟨"1.0", none, .x86_64,
   some [.web ⟨"http://a.example/x.iso", none, none, none⟩],
   none, none, none, none⟩

/-- A candidate record whose sources are all non-network. -/
def cfgDocker : Config :=
  ⟨"2.0", none, .x86_64,
   some [.docker ⟨"ghcr.io/x/y"⟩],
   none, none, none,
   some [⟨.docker ⟨"ghcr.io/x/z"⟩⟩]⟩

/-- A source whose generator yields exactly `cfgWeb`. -/
def distroWeb : DistroData := ⟨"testos", "TestOS", none, none, some [cfgWeb]⟩

/-- The counter-threaded environment with a fixed 404 answer. -/
def envS404 : EnvS := ⟨fun _ _ => .ok 404 "", true, fun _ => true⟩

/-- The wire answers of a host that fails transiently twice and then
succeeds. -/
def failTwiceOracle : Nat → TResult
  | 0 => .err
  | 1 => .err
  | _ => .ok 200 "body"

/-! ## Helper lemmas -/

/-- The `unwrap_or(true)` collapse: a probe's contribution to `all_valid`
is false exactly when the probe completed with a bad status. -/
theorem probe_getD (env : Env) (u : String) :
    (validateUrl env u).1.getD true = !(definiteFailure env u) := by
  unfold validateUrl definiteFailure
  cases hp : parseUrl u with
  | none => rfl
  | some url =>
    dsimp only
    cases hh : url.host with
    | none => rfl
    | some h =>
      dsimp only
      by_cases hr : registered h = true <;>
        by_cases ho : env.hostOpen h = true <;>
          by_cases hg : env.globalOpen = true <;>
            cases ht : env.transport url <;>
              simp [hr, ho, hg, ht, Bool.not_eq_true]

/-- `all_valid` in terms of definite failures. -/
theorem allValid_eq_all (env : Env) (urls : List String) :
    allValid env urls = urls.all (fun u => !(definiteFailure env u)) := by
  unfold allValid joinAll
  induction urls with
  | nil => rfl
  | cons u us ih => simp only [List.map_cons, List.all_cons, ih, probe_getD]

/-- Zipping a list with its mapped image and keeping the hits is
filtering. -/
theorem zip_map_filterMap {α : Type} (rs : List α) (f : α → Bool) :
    (rs.zip (rs.map f)).filterMap (fun p => if p.2 then some p.1 else none) =
      rs.filter f := by
  induction rs with
  | nil => rfl
  | cons r rs ih =>
      by_cases hf : f r = true <;>
        simp [List.filter_cons, hf, ih]

/-- One `.flatten()` on options keeps exactly the present values. -/
theorem flattenStep_option {α : Type} (xs : List (Option α)) :
    flattenStep xs = xs.filterMap id := by
  induction xs with
  | nil => rfl
  | cons x xs ih =>
      cases x <;> simp [flattenStep, IntoIter.intoIter, List.flatten] at ih ⊢ <;>
        exact ih

/-- One `.flatten()` on lists concatenates them. -/
theorem flattenStep_list {α : Type} (xs : List (List α)) :
    flattenStep xs = xs.flatten := by
  unfold flattenStep
  rw [show (IntoIter.intoIter : List α → List α) = id from rfl, List.map_id]

/-! ## Claim theorems -/

/-- C1 counterexample: it is not the case that a record validates iff every
URL validates in the spec's sense (valid exactly on success or 429, invalid
on any other status or transport error).  With a transport that always
errors, the probe of `http://a.example/` is invalid in the spec's sense,
yet `all_valid` still accepts the record: `unwrap_or(true)` treats the
status-less probe as valid. -/
theorem c1_counterexample :
    ¬ ∀ (env : Env) (urls : List String),
        (allValid env urls = true ↔ ∀ u ∈ urls, specUrlValid env u = true) := by
  intro hclaim
  have h := (hclaim envErr ["http://a.example/"]).mp rfl "http://a.example/"
    (List.mem_singleton.mpr rfl)
  have hf : specUrlValid envErr "http://a.example/" = false := rfl
  rw [hf] at h
  exact Bool.false_ne_true h

/-- C1 (amended): a record validates iff no URL of the list produces a
definite failure — a completed probe whose status is neither a success nor
429.  Probes that obtain no status at all (unparsable URL, URL without a
host, closed pool, transport error) are optimistically counted as valid by
`unwrap_or(true)`; a record with an empty URL list trivially validates. -/
theorem c1_allValid_iff_no_definite_failure (env : Env) (urls : List String) :
    allValid env urls = true ↔ ∀ u ∈ urls, definiteFailure env u = false := by
  rw [allValid_eq_all, List.all_eq_true]
  simp

/-- C2 counterexample: with a transport that answers 404, the only
generated record fails validation, yet `to_os` still emits a catalog entry
— with an empty `releases` list — because the code never checks that the
retained set is non-empty. -/
theorem c2_counterexample :
    allValid env404 (recordUrls cfgWeb) = false ∧
    to_os env404 distroWeb = some ⟨"testos", "TestOS", none, none, []⟩ :=
  ⟨rfl, rfl⟩

/-- C2 (amended): `to_os` emits no entry exactly when the generator
returns none or an empty list; whenever generation yields at least one
record, an entry is emitted whose releases are exactly the generated
records that passed validation — possibly none at all. -/
theorem c2_to_os_characterization (env : Env) (d : DistroData) :
    (to_os env d = none ↔ d.generate = none ∨ d.generate = some []) ∧
    (∀ os rs, d.generate = some rs → to_os env d = some os →
        os.releases = rs.filter (fun r => allValid env (recordUrls r))) := by
  unfold to_os
  cases hg : d.generate with
  | none => simp
  | some rs =>
    dsimp only
    by_cases he : rs.isEmpty
    · rw [List.isEmpty_iff] at he
      subst he
      simp
    · simp only [he, if_false, joinAll]
      constructor
      · simp only [List.isEmpty_iff] at he
        simp [he]
      · intro os rs' hrs' hsome
        cases hrs'
        cases hsome
        exact zip_map_filterMap rs (fun r => allValid env (recordUrls r))

/-- C2 witness: the amended characterization applied to the 404 transport
and the single-record source: the emitted entry's releases are the (empty)
filtered list. -/
theorem c2_witness :
    (⟨"testos", "TestOS", none, none, []⟩ : OS).releases =
      [cfgWeb].filter (fun r => allValid env404 (recordUrls r)) :=
  (c2_to_os_characterization env404 distroWeb).2
    ⟨"testos", "TestOS", none, none, []⟩ [cfgWeb] rfl rfl

/-- C3 counterexample: at depth 1 the combinator applied to
`[Some([1,2]), None, Some([])]` yields `[[1,2], []]` — one wrapper level is
removed, the `None` disappears, but the empty inner list survives and the
result is not the flat `[1,2]` the claim states (which only depth 2
produces). -/
theorem c3_counterexample :
    joinFutures1 [some [1, 2], none, some ([] : List Nat)] = [[1, 2], []] ∧
    ([[1, 2], []] : List (List Nat)) ≠ [[1, 2]] :=
  ⟨rfl, by decide⟩

/-- C3 (amended): `join_all` awaits every unit and returns all results in
input order; each depth unit removes exactly one wrapper level (an
`Option` level discards `None`s, a list level concatenates preserving
order); the input `[Some([1,2]), None, Some([])]` flattens to `[1,2]` at
depth 2, not depth 1. -/
theorem c3_join_futures_flatten :
    (∀ (α : Type) (xs : List α), joinFutures0 xs = xs) ∧
    (∀ (α : Type) (xs : List (Option α)), joinFutures1 xs = xs.filterMap id) ∧
    (∀ (α : Type) (xs : List (List α)), joinFutures1 xs = xs.flatten) ∧
    (∀ (α : Type) (xs : List (Option (List α))),
        joinFutures2 xs = (xs.filterMap id).flatten) ∧
    joinFutures2 [some [1, 2], none, some ([] : List Nat)] = [1, 2] := by
  refine ⟨fun α xs => rfl, fun α xs => flattenStep_option xs,
    fun α xs => flattenStep_list xs, fun α xs => ?_, rfl⟩
  show flattenStep (flattenStep xs) = (xs.filterMap id).flatten
  rw [flattenStep_option, flattenStep_list]

/-- C4 counterexample: `mailto:user@example.com` parses as a URL, and the
transport would answer it with 200 and a non-empty body, yet
`capture_page` returns none (and issues no request): the claim's iff is
missing the requirement that the URL have a host component. -/
theorem c4_counterexample :
    (∃ url, parseUrl "mailto:user@example.com" = some url ∧
        envOk.transport url = .ok 200 "hello" ∧ isSuccess 200 = true ∧
        ("hello" : String).isEmpty = false) ∧
    capturePage envOk "mailto:user@example.com" = (none, []) :=
  ⟨⟨⟨"mailto", none, "user@example.com"⟩, rfl, rfl, rfl, rfl⟩, rfl⟩

/-- C4 (amended): with the pools open (normal operation), `capture_page`
returns a body iff the input parses as a URL **with a host**, the GET of
that URL returns a success status, and the body is non-empty; unparsable
and host-less URLs yield none with no network call, and a success status
with empty body or any non-success status yields none. -/
theorem c4_capturePage_characterization (env : Env) (input : String)
    (hg : env.globalOpen = true) (hh : ∀ h, env.hostOpen h = true)
    (t : String) :
    (capturePage env input).1 = some t ↔
      ∃ url h s b, parseUrl input = some url ∧ url.host = some h ∧
        env.transport url = .ok s b ∧ isSuccess s = true ∧
        b.isEmpty = false ∧ t = b := by
  unfold capturePage
  cases hp : parseUrl input with
  | none => simp
  | some url =>
    dsimp only
    cases hhost : url.host with
    | none => simp [hhost]
    | some h0 =>
      dsimp only
      by_cases hr : registered h0 = true <;>
        simp only [hr, hh h0, hg, if_true, if_false, Bool.false_eq_true] <;>
          cases ht : env.transport url <;>
            (try simp [hhost, ht]) <;>
              aesop

/-- C4 witness: the amended iff applied to the 200/`hello` transport and a
parsable URL with a host. -/
theorem c4_witness :
    (capturePage envOk "http://a.example/x").1 = some "hello" :=
  (c4_capturePage_characterization envOk "http://a.example/x" rfl
      (fun _ => rfl) "hello").mpr
    ⟨⟨"http", some "a.example", "/x"⟩, "a.example", 200, "hello",
     rfl, rfl, rfl, rfl, rfl, rfl⟩

/-- C10 (confirmed): when the input parses to a URL without a host
component, `capture_page` returns none with an empty event trace — no
per-host or global permit is ever acquired and no request is sent. -/
theorem c10_no_host_no_acquire (env : Env) (input : String) (url : UrlT)
    (hp : parseUrl input = some url) (hh : url.host = none) :
    capturePage env input = (none, []) := by
  unfold capturePage
  rw [hp]
  dsimp only
  rw [hh]

/-- C10 witness: the theorem applied to the host-less `mailto:` URL. -/
theorem c10_witness :
    capturePage envOk "mailto:user@example.com" = (none, []) :=
  c10_no_host_no_acquire envOk "mailto:user@example.com"
    ⟨"mailto", none, "user@example.com"⟩ rfl rfl

/-- The empty trace satisfies the permit discipline. -/
theorem permitDiscipline_nil : permitDiscipline [] := by
  refine ⟨rfl, by simp, fun h => ⟨rfl, by simp⟩, rfl⟩

/-- A trace that acquires and releases only the per-host ticket satisfies
the permit discipline. -/
theorem permitDiscipline_hostOnly (h : String) :
    permitDiscipline [.acqHost h, .relHost h] := by
  refine ⟨?_, ?_, fun h' => ?_, rfl⟩
  · simp [List.count_cons]
  · simp [List.count_cons]
  · by_cases hh : h = h' <;>
      simp [List.count_cons, hh]

/-- The full registered-host trace satisfies the permit discipline. -/
theorem permitDiscipline_full (h : String) (u : UrlT) :
    permitDiscipline [.acqHost h, .acqGlobal, .send u, .relGlobal, .relHost h] := by
  refine ⟨?_, ?_, fun h' => ?_, ?_⟩
  · simp [List.count_cons]
  · simp [List.count_cons]
  · by_cases hh : h = h' <;>
      simp [List.count_cons, hh]
  · simp [hostAcqBeforeGlobal, List.dropWhile, isAcqHost, List.filter]

/-- The unregistered-host trace satisfies the permit discipline. -/
theorem permitDiscipline_globalOnly (u : UrlT) :
    permitDiscipline [.acqGlobal, .send u, .relGlobal] := by
  refine ⟨?_, ?_, fun h' => ?_, ?_⟩
  · simp [List.count_cons]
  · simp [List.count_cons]
  · simp [List.count_cons]
  · simp [hostAcqBeforeGlobal, List.dropWhile, isAcqHost, List.filter]

/-- Every `capture_page` execution produces one of four traces: nothing
acquired; host ticket acquired and released (global pool closed); the full
registered-host protocol; or the global-only protocol for an unregistered
host. -/
theorem capturePage_trace_cases (env : Env) (input : String) :
    (capturePage env input).2 = [] ∨
    (∃ url h, parseUrl input = some url ∧ url.host = some h ∧
      ((capturePage env input).2 = [.acqHost h, .relHost h] ∨
       (capturePage env input).2 =
         [.acqHost h, .acqGlobal, .send url, .relGlobal, .relHost h] ∨
       ((capturePage env input).2 = [.acqGlobal, .send url, .relGlobal] ∧
         registered h = false))) := by
  unfold capturePage
  cases hp : parseUrl input with
  | none => left; rfl
  | some url =>
    dsimp only
    cases hhost : url.host with
    | none => left; rfl
    | some h =>
      dsimp only
      by_cases hr : registered h = true
      · by_cases ho : env.hostOpen h = true
        · by_cases hg : env.globalOpen = true
          · right
            refine ⟨url, h, rfl, hhost, ?_⟩
            cases ht : env.transport url <;> simp [hr, ho, hg, ht]
          · right
            refine ⟨url, h, rfl, hhost, ?_⟩
            simp [hr, ho, hg]
        · left; simp [hr, ho]
      · by_cases hg : env.globalOpen = true
        · right
          refine ⟨url, h, rfl, hhost, ?_⟩
          have hrf : registered h = false := by simpa using hr
          cases ht : env.transport url <;>
            simp [hrf, hg, ht]
        · left; simp [hr, hg]

/-- Every `all_valid` probe execution produces one of the same four
traces. -/
theorem validateUrl_trace_cases (env : Env) (input : String) :
    (validateUrl env input).2 = [] ∨
    (∃ url h, parseUrl input = some url ∧ url.host = some h ∧
      ((validateUrl env input).2 = [.acqHost h, .relHost h] ∨
       (validateUrl env input).2 =
         [.acqHost h, .acqGlobal, .send url, .relGlobal, .relHost h] ∨
       ((validateUrl env input).2 = [.acqGlobal, .send url, .relGlobal] ∧
         registered h = false))) := by
  unfold validateUrl
  cases hp : parseUrl input with
  | none => left; rfl
  | some url =>
    dsimp only
    cases hhost : url.host with
    | none => left; rfl
    | some h =>
      dsimp only
      by_cases hr : registered h = true
      · by_cases ho : env.hostOpen h = true
        · by_cases hg : env.globalOpen = true
          · right
            refine ⟨url, h, rfl, hhost, ?_⟩
            cases ht : env.transport url <;> simp [hr, ho, hg, ht]
          · right
            refine ⟨url, h, rfl, hhost, ?_⟩
            simp [hr, ho, hg]
        · left; simp [hr, ho]
      · by_cases hg : env.globalOpen = true
        · right
          refine ⟨url, h, rfl, hhost, ?_⟩
          have hrf : registered h = false := by simpa using hr
          cases ht : env.transport url <;>
            simp [hrf, hg, ht]
        · left; simp [hr, hg]

/-- C5 (confirmed): on every exit path of `capture_page` and of the
`all_valid` probe, each acquired ticket is released exactly once (counts
balance and never exceed one), no per-host ticket is acquired at or after
the global acquisition, and when the URL's host has a registered pool and
the global ticket is taken at all, the very first event is the per-host
acquisition. -/
theorem c5_permit_discipline (env : Env) (input : String) :
    permitDiscipline (capturePage env input).2 ∧
    permitDiscipline (validateUrl env input).2 ∧
    (∀ url h, parseUrl input = some url → url.host = some h →
        registered h = true → Event.acqGlobal ∈ (capturePage env input).2 →
        (capturePage env input).2.head? = some (.acqHost h)) ∧
    (∀ url h, parseUrl input = some url → url.host = some h →
        registered h = true → Event.acqGlobal ∈ (validateUrl env input).2 →
        (validateUrl env input).2.head? = some (.acqHost h)) := by
  refine ⟨?_, ?_, ?_, ?_⟩
  · rcases capturePage_trace_cases env input with h | ⟨url, hs, hp, hh, h | h | ⟨h, hreg⟩⟩ <;>
      rw [h] <;>
        first
          | exact permitDiscipline_nil
          | exact permitDiscipline_hostOnly hs
          | exact permitDiscipline_full hs url
          | exact permitDiscipline_globalOnly url
  · rcases validateUrl_trace_cases env input with h | ⟨url, hs, hp, hh, h | h | ⟨h, hreg⟩⟩ <;>
      rw [h] <;>
        first
          | exact permitDiscipline_nil
          | exact permitDiscipline_hostOnly hs
          | exact permitDiscipline_full hs url
          | exact permitDiscipline_globalOnly url
  · intro url0 h0 hp0 hh0 hr0 hmem
    rcases capturePage_trace_cases env input with h | ⟨url, hs, hp, hh, h | h | ⟨h, hreg⟩⟩
    · rw [h] at hmem; simp at hmem
    · rw [h] at hmem; simp at hmem
    · rw [hp] at hp0; cases hp0
      rw [hh] at hh0; cases hh0
      rw [h]; rfl
    · rw [hp] at hp0; cases hp0
      rw [hh] at hh0; cases hh0
      rw [hreg] at hr0; cases hr0
  · intro url0 h0 hp0 hh0 hr0 hmem
    rcases validateUrl_trace_cases env input with h | ⟨url, hs, hp, hh, h | h | ⟨h, hreg⟩⟩
    · rw [h] at hmem; simp at hmem
    · rw [h] at hmem; simp at hmem
    · rw [hp] at hp0; cases hp0
      rw [hh] at hh0; cases hh0
      rw [h]; rfl
    · rw [hp] at hp0; cases hp0
      rw [hh] at hh0; cases hh0
      rw [hreg] at hr0; cases hr0

/-- C5 witness: a fetch of a sourceforge URL acquires the per-host ticket
first. -/
theorem c5_witness :
    (capturePage envOk "https://sourceforge.net/p/x").2.head? =
      some (.acqHost "sourceforge.net") := by
  apply (c5_permit_discipline envOk "https://sourceforge.net/p/x").2.2.1
    ⟨"https", some "sourceforge.net", "/p/x"⟩ "sourceforge.net" rfl rfl rfl
  have htr : (capturePage envOk "https://sourceforge.net/p/x").2 =
      [.acqHost "sourceforge.net", .acqGlobal,
       .send ⟨"https", some "sourceforge.net", "/p/x"⟩,
       .relGlobal, .relHost "sourceforge.net"] := rfl
  rw [htr]
  simp

/-- Permit accounting is conserved along every step: free units plus
holders always sum to each pool's capacity. -/
theorem stateInv_reachable (s : CState) (h : Reachable s) :
    s.globalAvail + s.sfInFlight + s.otherInFlight = globalCapacity ∧
    s.sfAvail + s.sfHeld + s.sfInFlight = sourceforgeCapacity := by
  induction h with
  | init => exact ⟨rfl, rfl⟩
  | step hr hs ih =>
      obtain ⟨h1, h2⟩ := ih
      cases hs <;> simp_all [globalCapacity, sourceforgeCapacity] <;> omega

/-- C6 (confirmed): in every reachable state the number of in-flight
requests is at most the global capacity 150, and the number of in-flight
requests to the registered host `sourceforge.net` is at most its
capacity 5. -/
theorem c6_concurrency_bounds (s : CState) (hs : Reachable s) :
    s.sfInFlight + s.otherInFlight ≤ globalCapacity ∧
    s.sfInFlight ≤ sourceforgeCapacity ∧
    globalCapacity = 150 ∧ sourceforgeCapacity = 5 := by
  obtain ⟨h1, h2⟩ := stateInv_reachable s hs
  exact ⟨by omega, by omega, rfl, rfl⟩

/-- C6 witness: the bounds instantiated at the initial state, whose
reachability is immediate. -/
theorem c6_witness :
    initState.sfInFlight + initState.otherInFlight ≤ globalCapacity ∧
    initState.sfInFlight ≤ sourceforgeCapacity ∧
    globalCapacity = 150 ∧ sourceforgeCapacity = 5 :=
  c6_concurrency_bounds initState Reachable.init

/-- The retry loop issues at most `budget + 1` attempts. -/
theorem retrySend_attempts (oracle : Nat → TResult) :
    ∀ budget k, (retrySend oracle budget k).2 ≤ k + budget + 1 := by
  intro budget
  induction budget with
  | zero => intro k; simp [retrySend]
  | succ n ih =>
      intro k
      unfold retrySend
      by_cases h : retryable (oracle k) = true <;> simp [h]
      · exact le_trans (ih (k + 1)) (by omega)

/-- Every attempt that was followed by another was retryable: the loop
retries only on transport errors and 5xx. -/
theorem retrySend_retryable (oracle : Nat → TResult) :
    ∀ budget k j, k ≤ j → j + 1 < (retrySend oracle budget k).2 →
      retryable (oracle j) = true := by
  intro budget
  induction budget with
  | zero => intro k j hkj hlt; simp [retrySend] at hlt; omega
  | succ n ih =>
      intro k j hkj hlt
      unfold retrySend at hlt
      by_cases h : retryable (oracle k) = true
      · simp [h] at hlt
        rcases Nat.lt_or_ge k j with hk | hk
        · exact ih (k + 1) j hk hlt
        · have : j = k := le_antisymm (by omega) hkj
          rw [this]; exact h
      · simp [h] at hlt; omega

/-- C7 (confirmed, retry middleware modelled from the spec): a governed
GET issues at most `maxRetries + 1 = 4` requests (the initial attempt plus
up to 3 retries), returns a non-retryable first answer immediately,
retries only on transport errors and 5xx statuses (404 is final, 502 and
transport errors are retried), backs off exponentially (each delay doubles
the previous), and a host that fails transiently twice then succeeds
yields a successful fetch on the third attempt. -/
theorem c7_retry_policy (oracle : Nat → TResult) :
    (retryFetch oracle).2 ≤ maxRetries + 1 ∧
    (retryable (oracle 0) = false → retryFetch oracle = (oracle 0, 1)) ∧
    (∀ k, k + 1 < (retryFetch oracle).2 → retryable (oracle k) = true) ∧
    retryFetch failTwiceOracle = (.ok 200 "body", 3) ∧
    (∀ base k, backoffDelay base (k + 1) = 2 * backoffDelay base k) ∧
    retryable .err = true ∧ retryable (.ok 404 "") = false ∧
    retryable (.ok 502 "") = true := by
  refine ⟨retrySend_attempts oracle maxRetries 0, ?_, ?_, rfl, ?_, rfl, rfl, rfl⟩
  · intro h
    unfold retryFetch maxRetries retrySend
    simp [h]
  · intro k hk
    exact retrySend_retryable oracle maxRetries 0 k (Nat.zero_le k) hk
  · intro base k
    unfold backoffDelay
    ring

/-- C7 witness: a first-attempt success returns immediately with one
attempt. -/
theorem c7_witness :
    retryFetch (fun _ => TResult.ok 200 "x") = (.ok 200 "x", 1) :=
  (c7_retry_policy (fun _ => TResult.ok 200 "x")).2.1 (by decide)

/-- Membership in `filter_web_sources`: exactly the URLs of web sources. -/
theorem mem_filter_web_sources (ss : List Source) (u : String) :
    u ∈ filter_web_sources ss ↔ ∃ w, Source.web w ∈ ss ∧ w.url = u := by
  unfold filter_web_sources
  rw [List.mem_filterMap]
  constructor
  · rintro ⟨s, hs, hmatch⟩
    cases s with
    | web w => exact ⟨w, hs, by simpa using hmatch⟩
    | docker d => simp at hmatch
  · rintro ⟨w, hw, rfl⟩
    exact ⟨.web w, hw, rfl⟩

/-- Membership in the flattened per-list web URLs. -/
theorem mem_flatten_web (L : List (List Source)) (u : String) :
    u ∈ (L.map filter_web_sources).flatten ↔
      ∃ w, Source.web w ∈ L.flatten ∧ w.url = u := by
  rw [List.mem_flatten]
  constructor
  · rintro ⟨l, hl, hu⟩
    obtain ⟨ss, hss, rfl⟩ := List.mem_map.mp hl
    obtain ⟨w, hw, rfl⟩ := (mem_filter_web_sources ss u).mp hu
    exact ⟨w, List.mem_flatten.mpr ⟨ss, hss, hw⟩, rfl⟩
  · rintro ⟨w, hw, rfl⟩
    obtain ⟨ss, hss, hwss⟩ := List.mem_flatten.mp hw
    exact ⟨filter_web_sources ss, List.mem_map.mpr ⟨ss, hss, rfl⟩,
      (mem_filter_web_sources ss _).mpr ⟨w, hwss, rfl⟩⟩

/-- `extract_disk_urls` filters the web sources of the disks, treating a
missing list as empty. -/
theorem extract_disk_urls_eq (disks : Option (List Disk)) :
    extract_disk_urls disks =
      filter_web_sources ((disks.getD []).map (fun d => d.source)) := by
  cases disks <;> rfl

/-- The URL list validated for a record contains exactly the URLs of the
web sources among its media fields and its nested disk images. -/
theorem mem_recordUrls (r : Config) (u : String) :
    u ∈ recordUrls r ↔ ∃ w, Source.web w ∈ configSources r ∧ w.url = u := by
  unfold recordUrls configSources
  rw [extract_disk_urls_eq, List.mem_append, mem_flatten_web, mem_filter_web_sources]
  constructor
  · rintro (⟨w, hw, rfl⟩ | ⟨w, hw, rfl⟩)
    · exact ⟨w, List.mem_append.mpr (Or.inl hw), rfl⟩
    · exact ⟨w, List.mem_append.mpr (Or.inr hw), rfl⟩
  · rintro ⟨w, hw, rfl⟩
    rcases List.mem_append.mp hw with h | h
    · exact Or.inl ⟨w, h, rfl⟩
    · exact Or.inr ⟨w, h, rfl⟩

/-- C8 (confirmed): liveness validation considers exactly the record's
network (web) resource URLs, including those of nested disk-image
resources — a URL is checked iff some web source of the record (media
fields or disk images) carries it — and a record all of whose sources are
non-network contributes no URLs and trivially validates under every
environment. -/
theorem c8_web_sources_only :
    (∀ (r : Config) (u : String), u ∈ recordUrls r ↔
        ∃ w, Source.web w ∈ configSources r ∧ w.url = u) ∧
    (∀ (env : Env) (r : Config), (∀ s ∈ configSources r, isWeb s = false) →
        recordUrls r = [] ∧ allValid env (recordUrls r) = true) := by
  refine ⟨mem_recordUrls, fun env r hall => ?_⟩
  have hnil : recordUrls r = [] := by
    rw [List.eq_nil_iff_forall_not_mem]
    intro u hu
    obtain ⟨w, hw, _⟩ := (mem_recordUrls r u).mp hu
    have := hall _ hw
    simp [isWeb] at this
  exact ⟨hnil, by rw [hnil]; rfl⟩

/-- C8 witness: the all-docker record has no validated URLs and passes
validation even when every request would fail. -/
theorem c8_witness :
    recordUrls cfgDocker = [] ∧
    allValid envErr (recordUrls cfgDocker) = true :=
  c8_web_sources_only.2 envErr cfgDocker (by decide)

/-- Under a deterministic transport, a probe's outcome does not depend on
the request counter. -/
theorem validateUrlAt_fst (env : EnvS) (hdet : Deterministic env.transport)
    (u : String) (c c' : Nat) :
    (validateUrlAt env u c).1 = (validateUrlAt env u c').1 := by
  unfold validateUrlAt
  cases hp : parseUrl u with
  | none => rfl
  | some url =>
    dsimp only
    cases hh : url.host with
    | none => rfl
    | some h =>
      dsimp only
      by_cases hr : registered h = true <;>
        by_cases ho : env.hostOpen h = true <;>
          by_cases hg : env.globalOpen = true <;>
            simp only [hr, ho, hg, if_true, if_false, Bool.false_eq_true] <;>
              first
                | rfl
                | (rw [hdet url c' c]; cases env.transport url c <;> rfl)

/-- Under a deterministic transport, the probe results of a URL list do
not depend on the starting counter. -/
theorem probeAll_fst (env : EnvS) (hdet : Deterministic env.transport) :
    ∀ (us : List String) (c c' : Nat),
      (probeAll env us c).1 = (probeAll env us c').1 := by
  intro us
  induction us with
  | nil => intro c c'; rfl
  | cons u us ih =>
      intro c c'
      simp only [probeAll]
      rw [validateUrlAt_fst env hdet u c c',
        ih (validateUrlAt env u c).2 (validateUrlAt env u c').2]

/-- Under a deterministic transport, a record's validation verdict does
not depend on the starting counter. -/
theorem allValidAt_fst (env : EnvS) (hdet : Deterministic env.transport)
    (us : List String) (c c' : Nat) :
    (allValidAt env us c).1 = (allValidAt env us c').1 := by
  simp only [allValidAt]
  rw [probeAll_fst env hdet us c c']

/-- Under a deterministic transport, the verdict list of a release list
does not depend on the starting counter. -/
theorem validateAll_fst (env : EnvS) (hdet : Deterministic env.transport) :
    ∀ (rs : List Config) (c c' : Nat),
      (validateAll env rs c).1 = (validateAll env rs c').1 := by
  intro rs
  induction rs with
  | nil => intro c c'; rfl
  | cons r rs ih =>
      intro c c'
      simp only [validateAll]
      rw [allValidAt_fst env hdet (recordUrls r) c c',
        ih (allValidAt env (recordUrls r) c).2 (allValidAt env (recordUrls r) c').2]

/-- C9 (confirmed): against a deterministic transport — one answering
every request for a URL identically — two runs of the
generate→validate→filter pipeline from any two points in the global
request sequence produce the same catalog entry, hence identical
retained-record sets. -/
theorem c9_deterministic_idempotent (env : EnvS)
    (hdet : Deterministic env.transport) (d : DistroData) (c c' : Nat) :
    (to_osAt env d c).1 = (to_osAt env d c').1 := by
  unfold to_osAt
  cases d.generate with
  | none => rfl
  | some rs =>
      dsimp only
      by_cases he : rs.isEmpty = true
      · simp [he]
      · simp only [he, if_false, Bool.false_eq_true]
        rw [validateAll_fst env hdet rs c c']

/-- C9 witness: two runs against the fixed 404 transport, starting at
request counters 0 and 7, agree. -/
theorem c9_witness :
    (to_osAt envS404 distroWeb 0).1 = (to_osAt envS404 distroWeb 7).1 :=
  c9_deterministic_idempotent envS404 (fun _ _ _ => rfl) distroWeb 0 7

end Quickget
